import Mathlib

/-!
Shallow embedding of the cbre-chatbot repository (src/main.py and
src/ingest_data.py), together with theorems settling the frozen claims
about its natural-language specification.

The chat endpoint, request/response models and the rule-based response
generator are translated directly from src/main.py.  The vector store
(Chroma) and the recursive text splitter are third-party components whose
code is not in the repository; where a claim depends on their behaviour
they are modelled from the specification's contract, and each such
definition says so in its doc comment.
-/

/- ===== Data models of src/main.py (lines 67-78) ===== -/

/-- A chat message, from the `Message` pydantic model (src/main.py lines 67-69). -/
structure Message where
  role : String
  content : String
deriving DecidableEq

/-- A validated chat request, from the `ChatRequest` pydantic model
(src/main.py lines 71-73): `query` is required, `conversation_history`
defaults to the empty list. -/
structure ChatRequest where
  query : String
  conversation_history : List Message
deriving DecidableEq

/-- A raw (unvalidated) chat request body as received over HTTP: either
field may be absent.  FastAPI validates it against `ChatRequest` before the
handler runs; a missing `query` is a validation error (HTTP 422),
`conversation_history` is optional with default `[]`. -/
structure RawChatRequest where
  query : Option String
  conversation_history : Option (List Message)
deriving DecidableEq

/-- The chat response, from the `ChatResponse` pydantic model
(src/main.py lines 75-78). -/
structure ChatResponse where
  response : String
  sources : List String
  timestamp : String
deriving DecidableEq

/-- The observable behaviour of the global `vectorstore` object as the chat
handler uses it: `count` models `vectorstore._collection.count()` (which can
raise, modelled by `Except.error ()`), and `search` models
`vectorstore.similarity_search(query, k)` returning the `page_content`
strings of the retrieved documents (and can raise too). -/
structure StoreState where
  count : Except Unit Nat
  search : String → Nat → Except Unit (List String)

/- ===== The rule-based response generator (src/main.py lines 46-51) ===== -/

/-- The sentinel context string set by `chat` when the store is missing or
empty (src/main.py line 123). -/
def noDocsContext : String := "No documents in database yet. Using general knowledge."

/-- The placeholder context string set by `chat` when the similarity search
raises (src/main.py line 121). -/
def noRelevantContext : String := "No relevant documents found."

/-- The fixed fallback response of `generate_response`
(src/main.py line 51). -/
def fallbackResponse : String :=
  "I don't have specific information about that in my database yet. Please make sure you've run 'python ingest_data.py' to load the CBRE documents first."

/-- The templated response of `generate_response` (src/main.py line 49):
a fixed head, the context truncated to its first 500 characters, and a
fixed closing line. -/
def templated (context : String) : String :=
  "Based on CBRE's information: " ++ context.take 500 ++
    "\n\nIs there anything specific you'd like to know more about?"

/-- `generate_response` from src/main.py lines 46-51.  Python's
`if context and context != "No documents in database yet. ..."` tests
truthiness (non-emptiness) of `context` and exact string inequality with
the sentinel. -/
def generate_response (_query : String) (context : String) : String :=
  if context ≠ "" ∧ context ≠ noDocsContext then
    templated context
  else
    fallbackResponse

/- ===== The chat endpoint (src/main.py lines 103-138) ===== -/

/-- The `/chat` handler body from src/main.py lines 103-138.

The whole body runs inside a `try` whose `except` raises
`HTTPException(status_code=500, ...)`; only the similarity search (lines
114-117) is additionally guarded by an inner `try` whose `except` sets
`context = "No relevant documents found."`.  The store is consulted as
`if vectorstore and vectorstore._collection.count() > 0:` (line 111), so a
missing store object skips the count, while an exception from `count()` is
caught only by the outer handler (HTTP 500).  `timestamp` stands for
`datetime.utcnow().isoformat()`. -/
def chat (vectorstore : Option StoreState) (timestamp : String)
    (request : ChatRequest) : Except Nat ChatResponse :=
  match vectorstore with
  | none =>
      Except.ok { response := generate_response request.query noDocsContext,
                  sources := [], timestamp := timestamp }
  | some s =>
      match s.count with
      | Except.error _ => Except.error 500
      | Except.ok n =>
          if n > 0 then
            match s.search request.query 3 with
            | Except.error _ =>
                Except.ok { response := generate_response request.query noRelevantContext,
                            sources := [], timestamp := timestamp }
            | Except.ok texts =>
                let context := String.intercalate "\n\n" texts
                let sources := texts.map (fun t => t.take 150 ++ "...")
                Except.ok { response := generate_response request.query context,
                            sources := sources, timestamp := timestamp }
          else
            Except.ok { response := generate_response request.query noDocsContext,
                        sources := [], timestamp := timestamp }

/-- FastAPI/pydantic validation of the request body against `ChatRequest`
(src/main.py lines 71-73): a missing `query` field fails with HTTP 422
(the InvalidRequest of the specification); any present string — including
the empty string — is accepted, and a missing `conversation_history`
defaults to `[]`. -/
def validateRequest (raw : RawChatRequest) : Except Nat ChatRequest :=
  match raw.query with
  | none => Except.error 422
  | some q => Except.ok { query := q, conversation_history := raw.conversation_history.getD [] }

/-- The full `/chat` entry point: pydantic validation, then the handler. -/
def handleChat (vectorstore : Option StoreState) (timestamp : String)
    (raw : RawChatRequest) : Except Nat ChatResponse :=
  match validateRequest raw with
  | Except.error c => Except.error c
  | Except.ok req => chat vectorstore timestamp req

/- ===== Vector store (modelled from the spec) ===== -/

/-- A stored chunk: text plus its embedding vector.  Modelled from the
spec: the data model of the Chroma vector store (not part of this
repository's sources); scores are rationals standing for the similarity
values. -/
structure Chunk where
  text : String
  vector : List ℚ
deriving DecidableEq

/-- The ranking order on scored entries `(insertion index, score, chunk)`:
`rankLE a b` means `a` comes no later than `b` in a query result —
strictly higher score first, ties broken by insertion order (smaller
index first).  Modelled from the spec's query contract. -/
def rankLE (a b : Nat × ℚ × Chunk) : Prop :=
  b.2.1 < a.2.1 ∨ (a.2.1 = b.2.1 ∧ a.1 ≤ b.1)

instance rankLE.instDecidable : DecidableRel rankLE := fun a b => by
  unfold rankLE; infer_instance

instance rankLE.instIsTotal : IsTotal (Nat × ℚ × Chunk) rankLE := by
  constructor
  intro a b
  unfold rankLE
  rcases lt_trichotomy a.2.1 b.2.1 with h | h | h
  · exact Or.inr (Or.inl h)
  · rcases Nat.le_total a.1 b.1 with hn | hn
    · exact Or.inl (Or.inr ⟨h, hn⟩)
    · exact Or.inr (Or.inr ⟨h.symm, hn⟩)
  · exact Or.inl (Or.inl h)

instance rankLE.instIsTrans : IsTrans (Nat × ℚ × Chunk) rankLE := by
  constructor
  intro a b c hab hbc
  unfold rankLE at hab hbc ⊢
  rcases hab with h1 | ⟨e1, l1⟩ <;> rcases hbc with h2 | ⟨e2, l2⟩
  · exact Or.inl (h2.trans h1)
  · exact Or.inl (e2 ▸ h1)
  · exact Or.inl (e1 ▸ h2)
  · exact Or.inr ⟨e1.trans e2, l1.trans l2⟩

/-- Modelled from the spec: the store holds entries in insertion order;
a query scores every stored vector against the query vector.  `score` is
the similarity of a stored vector with the (already embedded) query. -/
def scoredEntries (store : List Chunk) (score : List ℚ → ℚ) : List (Nat × ℚ × Chunk) :=
  store.enum.map (fun p => (p.1, score p.2.vector, p.2))

/-- Modelled from the spec: the query result before dropping the internal
insertion indices — all scored entries sorted by descending score with
ties broken by insertion order, with the first `k` kept. -/
def queryRanked (store : List Chunk) (score : List ℚ → ℚ) (k : Nat) :
    List (Nat × ℚ × Chunk) :=
  (List.insertionSort rankLE (scoredEntries store score)).take k

/-- Modelled from the spec: `query(text, k)` embeds `text`, scores every
stored vector with the similarity function, and returns the `k`
highest-scoring entries as `(Chunk, score)` pairs in descending score
order, ties broken by insertion order.  The embedding provider and the
similarity metric (cosine) are opaque parameters: the contract being
verified does not depend on their values.  A total function: querying an
empty store returns `[]`, never an error. -/
def storeQuery (embed : String → List ℚ) (similarity : List ℚ → List ℚ → ℚ)
    (store : List Chunk) (text : String) (k : Nat) : List (Chunk × ℚ) :=
  (queryRanked store (similarity (embed text)) k).map (fun e => (e.2.2, e.2.1))

/-- Inner product, a concrete similarity function used by witnesses. -/
def dotProduct (v w : List ℚ) : ℚ := (List.zipWith (· * ·) v w).sum

/- ===== Chunker (modelled from the spec; configuration from src/ingest_data.py) ===== -/

/-- The separator priority list of the text splitter, from
src/ingest_data.py line 142: paragraph break, line break, sentence end,
word boundary.  The final `""` separator of the source (split anywhere)
is the fallback branch of `splitEnd`. -/
def separators : List (List Char) :=
  [['\n', '\n'], ['\n'], ['.', ' '], [' ']]

/-- Modelled from the spec: the largest split position `e` with
`lo < e ≤ fuel` such that the window `s.take e` ends with the separator
`sep`, found by scanning downwards from `fuel`; `none` if there is no
such position. -/
def lastSepEnd (sep s : List Char) (lo : Nat) : Nat → Option Nat
  | 0 => none
  | e + 1 =>
    if lo < e + 1 ∧ sep.isSuffixOf (s.take (e + 1)) then some (e + 1)
    else lastSepEnd sep s lo e

/-- Modelled from the spec: try each separator in priority order and take
the split position of the first separator that occurs in the window; if
none occurs, split at the window limit `hi` (character-level split). -/
def splitBySeps : List (List Char) → List Char → Nat → Nat → Nat
  | [], _, _, hi => hi
  | sep :: rest, s, lo, hi =>
    match lastSepEnd sep s lo hi with
    | some e => e
    | none => splitBySeps rest s lo hi

/-- Modelled from the spec: the end position of the next chunk of `s`,
for chunk size `S` and overlap `O`.  The position is the separator split
of `splitBySeps` clamped to the window `(O, S]` (the clamp never fires —
`lastSepEnd` only returns positions in range — but it makes the bounds
definitional, which the termination argument of `chunkList` uses). -/
def splitEnd (S O : Nat) (s : List Char) : Nat :=
  if O < splitBySeps separators s O S ∧ splitBySeps separators s O S ≤ S then
    splitBySeps separators s O S
  else S

/-- Modelled from the spec: the chunker.  Empty content produces no
chunks; content of at most `S` characters produces the single chunk `s`;
longer content is cut at `splitEnd S O s`, and the next chunk restarts
`O` characters before the cut so that consecutive chunks overlap. -/
def chunkList (S O : Nat) (hSO : O < S) (s : List Char) : List (List Char) :=
  if s.length ≤ S then
    if s.isEmpty then [] else [s]
  else
    s.take (splitEnd S O s) :: chunkList S O hSO (s.drop (splitEnd S O s - O))
termination_by s.length
decreasing_by
  have hb : O < splitEnd S O s ∧ splitEnd S O s ≤ S := by
    by_cases hc : O < splitBySeps separators s O S ∧ splitBySeps separators s O S ≤ S
    · simp only [splitEnd, if_pos hc]; exact hc
    · simp only [splitEnd, if_neg hc]; exact ⟨hSO, Nat.le_refl S⟩
  simp only [List.length_drop]
  omega

/-- Whether some position `e` with `lo < e ≤ hi` has the window `s.take e`
ending with the separator `sep` — i.e. whether separator `sep` is present
in the window at all (as a usable split point). -/
def hasSepEnd (sep s : List Char) (lo hi : Nat) : Bool :=
  (List.range (hi + 1)).any (fun e => decide (lo < e) && sep.isSuffixOf (s.take e))

/-- The split-point policy of the spec, as a predicate on the chosen end
position `e`: the chunk `s.take e` must end with the highest-priority
separator that is present in the window, and when no separator is present
the split is at the window limit `hi` (character-level split). -/
def priorityChoice : List (List Char) → List Char → Nat → Nat → Nat → Prop
  | [], _, _, hi, e => e = hi
  | sep :: rest, s, lo, hi, e =>
    if hasSepEnd sep s lo hi then sep.isSuffixOf (s.take e) = true
    else priorityChoice rest s lo hi e

/-- Two consecutive chunks share `O` characters: the last `O` characters
of the earlier chunk are the first `O` characters of the later one, and
both chunks are longer than `O`. -/
def overlapRel (O : Nat) (a b : List Char) : Prop :=
  O < a.length ∧ O < b.length ∧ b.take O = a.drop (a.length - O)

/- ===== Ingestion (src/ingest_data.py) ===== -/

/-- A LangChain document: page content plus metadata, as built from the
sample data in src/ingest_data.py lines 129-136. -/
structure IngestDocument where
  page_content : String
  metadata : List (String × String)
deriving DecidableEq
/-- The fixed list of sample CBRE documents ingested by src/ingest_data.py
(the `sample_documents` list, lines 33-124), as (page_content, metadata) pairs. -/
def sample_documents : List IngestDocument := [
  { page_content :=
      "CBRE Office Space Solutions\n        \nCBRE offers comprehensive office space solutions in major metropolitan areas across the United States. Our portfolio includes Class A office buildings featuring modern amenities such as high-speed internet, conference rooms, fitness centers, and 24/7 security. \n\nWe provide flexible lease terms ranging from short-term coworking spaces to long-term corporate headquarters leases. Our office properties are strategically located in prime business districts with excellent access to public transportation, dining, and retail amenities.\n\nPopular locations include New York City (Manhattan), Los Angeles (Downtown and West LA), Chicago (Loop and River North), San Francisco (Financial District), and Austin (Downtown).",
    metadata := [("title", "Office Space Solutions"), ("category", "Office")] },
  { page_content :=
      "Industrial and Warehouse Properties\n        \nCBRE's industrial and logistics division specializes in warehouse and distribution center properties ranging from 50,000 to over 500,000 square feet. Our facilities feature:\n\n- Clear heights of 28-36 feet\n- Multiple dock-high loading doors\n- ESFR sprinkler systems\n- LED lighting throughout\n- Proximity to major highways and interstates\n- Rail access available at select locations\n\nThese properties are ideal for e-commerce fulfillment, manufacturing, cold storage, and third-party logistics operations. Major industrial markets include the Inland Empire (California), Dallas-Fort Worth, Atlanta, Chicago, and New Jersey.",
    metadata := [("title", "Industrial Properties"), ("category", "Industrial")] },
  { page_content :=
      "2024 Commercial Real Estate Market Trends\n        \nThe commercial real estate market in 2024 shows strong performance in several key areas:\n\nOffice Market: Hybrid work models continue to drive demand for flexible, amenity-rich office spaces. Flight to quality remains a dominant trend, with tenants seeking Class A properties with modern technology infrastructure.\n\nIndustrial Sector: E-commerce growth fuels continued demand for last-mile distribution facilities. Industrial vacancy rates remain at historic lows in top-tier markets.\n\nInvestment Activity: Cap rates have stabilized after the 2023 adjustment period. Institutional investors are actively seeking core assets in primary markets.\n\nTechnology Impact: PropTech adoption accelerates, with smart building systems, AI-powered property management, and virtual touring becoming standard offerings.",
    metadata := [("title", "2024 Market Trends"), ("category", "Market Analysis")] },
  { page_content :=
      "CBRE Retail Properties\n        \nOur retail division manages shopping centers, lifestyle centers, and mixed-use developments across the country. Properties range from neighborhood strip centers to regional malls and premium outlet centers.\n\nKey Features:\n- High-traffic locations with excellent visibility\n- Co-tenancy with national and regional retailers\n- Ample parking with modern amenities\n- Common area maintenance programs\n- Marketing and promotional support\n\nRetail trends show strong performance for experiential retail, dining, and entertainment concepts. Grocery-anchored centers and medical office adjacencies continue to attract stable traffic.",
    metadata := [("title", "Retail Properties"), ("category", "Retail")] },
  { page_content :=
      "CBRE Leasing Services\n        \nCBRE provides comprehensive tenant representation and landlord representation services:\n\nTenant Representation:\n- Market analysis and site selection\n- Lease negotiation and documentation\n- Space planning and design coordination\n- Move management services\n\nLandlord Representation:\n- Property marketing and positioning\n- Tenant prospecting and outreach\n- Lease structuring and negotiation\n- Portfolio management\n\nOur team of experienced brokers provides market insights, financial analysis, and strategic advice to optimize real estate decisions. We serve clients across all property types and markets nationwide.",
    metadata := [("title", "Leasing Services"), ("category", "Services")] },
  { page_content :=
      "Commercial Real Estate Investment Analysis\n        \nWhen evaluating commercial real estate investments, CBRE considers several key metrics:\n\nCap Rate: Net operating income divided by property value. Current market cap rates range from 4-5% for Class A office to 5-7% for industrial properties.\n\nCash-on-Cash Return: Annual pre-tax cash flow divided by total cash invested. Target returns typically range from 7-12% depending on asset class and risk profile.\n\nInternal Rate of Return (IRR): Time-weighted return considering all cash flows. Institutional investors typically target 12-18% IRR for value-add strategies.\n\nOccupancy and Tenant Quality: Stable, creditworthy tenants with long-term leases reduce risk and enhance property value.\n\nLocation Factors: Proximity to labor pools, transportation infrastructure, and amenities directly impacts property performance and appreciation potential.",
    metadata := [("title", "Investment Analysis"), ("category", "Investment")] }
]

/-- The text splitter applied to a list of documents, from
src/ingest_data.py lines 139-146: each document's content is split with
`chunk_size=500, chunk_overlap=50` (the splitting algorithm itself is
modelled from the spec, see `chunkList`), and each chunk keeps its source
document's metadata. -/
def split_documents (docs : List IngestDocument) : List IngestDocument :=
  docs.flatMap (fun d =>
    (chunkList 500 50 (by omega) d.page_content.toList).map
      (fun c => { page_content := String.mk c, metadata := d.metadata }))

/-- Modelled from the spec: `add` appends the new entries to the store
(append-only, insertion order kept), as Chroma's `add_documents` is used
in src/ingest_data.py line 151. -/
def add_documents (store docs : List IngestDocument) : List IngestDocument :=
  store ++ docs

/-- Modelled from the spec: `count()` is the number of persisted entries
(src/ingest_data.py line 157, src/main.py lines 100 and 111). -/
def storeCount (store : List IngestDocument) : Nat :=
  store.length

/-- The ingestion run of src/ingest_data.py lines 126-157 against a given
initial store: split the fixed sample documents into chunks and add them
to the store. -/
def ingest_data (store : List IngestDocument) : List IngestDocument :=
  add_documents store (split_documents sample_documents)

/- ===== Helper lemmas ===== -/

/-- The templated response never coincides with the fallback response:
they differ already in their first character. -/
theorem templated_ne_fallback (context : String) :
    templated context ≠ fallbackResponse := by
  intro h
  have h2 := congrArg String.data h
  simp only [templated, fallbackResponse] at h2
  rw [String.data_append, String.data_append] at h2
  have hB : ("Based on CBRE's information: " : String).data
      = 'B' :: ("ased on CBRE's information: " : String).data := rfl
  rw [hB, List.cons_append, List.cons_append] at h2
  injection h2 with hhead _
  exact absurd hhead (by decide)

/-- `generate_response` on the no-documents sentinel yields the fallback. -/
theorem generate_response_noDocs (q : String) :
    generate_response q noDocsContext = fallbackResponse := by
  unfold generate_response
  rw [if_neg]
  simp

/-- `generate_response` on the search-error placeholder yields the
templated response (the placeholder is non-empty and differs from the
sentinel). -/
theorem generate_response_noRelevant (q : String) :
    generate_response q noRelevantContext = templated noRelevantContext := by
  unfold generate_response
  rw [if_pos (by decide)]

/-- The only hard failure `chat` can produce is HTTP 500, and exactly when
the store object is present but its `count()` call raises. -/
theorem chat_errors (store : Option StoreState) (ts : String) (req : ChatRequest) :
    (∀ c, chat store ts req = Except.error c →
      c = 500 ∧ ∃ s, store = some s ∧ s.count = Except.error ()) ∧
    ((∃ s, store = some s ∧ s.count = Except.error ()) →
      chat store ts req = Except.error 500) := by
  cases store with
  | none =>
    constructor
    · intro c h
      simp only [chat] at h
      exact Except.noConfusion h
    · rintro ⟨s, hs, -⟩
      exact Option.noConfusion hs
  | some s =>
    cases hc : s.count with
    | error u =>
      cases u
      constructor
      · intro c h
        simp only [chat, hc] at h
        injection h with h'
        exact ⟨h'.symm, s, rfl, hc⟩
      · intro _
        simp only [chat, hc]
    | ok n =>
      have hok : ¬ ∃ s', some s = some s' ∧ s'.count = Except.error () := by
        rintro ⟨s', hs', hcs'⟩
        rw [Option.some.injEq] at hs'
        subst hs'
        rw [hc] at hcs'
        exact Except.noConfusion hcs'
      by_cases hn : n > 0
      · cases hs : s.search req.query 3 with
        | error u =>
          constructor
          · intro c h
            simp only [chat, hc, hs] at h
            rw [if_pos hn] at h
            exact Except.noConfusion h
          · intro hex; exact absurd hex hok
        | ok texts =>
          constructor
          · intro c h
            simp only [chat, hc, hs] at h
            rw [if_pos hn] at h
            exact Except.noConfusion h
          · intro hex; exact absurd hex hok
      · constructor
        · intro c h
          simp only [chat, hc] at h
          rw [if_neg hn] at h
          exact Except.noConfusion h
        · intro hex; exact absurd hex hok

/- ===== Claim theorems ===== -/

set_option maxRecDepth 2000

/-- C3: `generate_response` returns the fallback string exactly when its
context argument is empty or equal to the literal sentinel
"No documents in database yet. Using general knowledge."; for every other
context string it returns the templated "Based on CBRE's information: ..."
response — the fallback decision is exact string comparison against the
sentinel. -/
theorem generate_response_sentinel_decision (q context : String) :
    (generate_response q context = fallbackResponse ↔
      context = "" ∨ context = noDocsContext) ∧
    (context ≠ "" → context ≠ noDocsContext →
      generate_response q context = templated context) := by
  by_cases hc : context ≠ "" ∧ context ≠ noDocsContext
  · unfold generate_response
    rw [if_pos hc]
    refine ⟨⟨fun h => absurd h (templated_ne_fallback context), fun h => ?_⟩,
      fun _ _ => rfl⟩
    rcases h with h | h
    · exact absurd h hc.1
    · exact absurd h hc.2
  · unfold generate_response
    rw [if_neg hc]
    push_neg at hc
    refine ⟨⟨fun _ => ?_, fun _ => rfl⟩, fun h1 h2 => absurd (hc h1) h2⟩
    by_cases he : context = ""
    · exact Or.inl he
    · exact Or.inr (hc he)

/-- C3 witness: the placeholder context is neither empty nor the sentinel,
so the response is the templated one. -/
theorem generate_response_sentinel_decision_witness :
    generate_response "office" "No relevant documents found." =
      templated "No relevant documents found." :=
  (generate_response_sentinel_decision "office" "No relevant documents found.").2
    (by decide) (by decide)

/-- C10: the conversation history is ignored — two chat requests with the
same query text, evaluated against the same store state and timestamp,
produce identical results whatever `conversation_history` each carries. -/
theorem conversation_history_ignored
    (store : Option StoreState) (ts q : String)
    (h1 h2 : Option (List Message)) :
    handleChat store ts ⟨some q, h1⟩ = handleChat store ts ⟨some q, h2⟩ := rfl

/-- C4: when the vector store is missing or empty, `chat` answers with the
fixed fallback response and an empty sources list; and a query on the
(modelled) empty store returns the empty sequence — it is a total
function, no error is possible. -/
theorem chat_empty_or_unavailable_fallback
    (store : Option StoreState) (ts : String) (req : ChatRequest)
    (h : store = none ∨ ∃ s, store = some s ∧ s.count = Except.ok 0) :
    chat store ts req =
      Except.ok { response := fallbackResponse, sources := [], timestamp := ts } ∧
    ∀ (embed : String → List ℚ) (similarity : List ℚ → List ℚ → ℚ)
      (text : String) (k : Nat),
      storeQuery embed similarity [] text k = [] := by
  constructor
  · rcases h with h | ⟨s, hs, hc⟩
    · subst h
      simp only [chat, generate_response_noDocs]
    · subst hs
      simp only [chat, hc]
      rw [if_neg (by omega)]
      rw [generate_response_noDocs]
  · intro embed similarity text k
    simp [storeQuery, queryRanked, scoredEntries]

/-- C4 witness at a concrete unavailable store. -/
theorem chat_empty_or_unavailable_fallback_witness :
    chat none "t" ⟨"office", []⟩ =
      Except.ok { response := fallbackResponse, sources := [], timestamp := "t" } ∧
    ∀ (embed : String → List ℚ) (similarity : List ℚ → List ℚ → ℚ)
      (text : String) (k : Nat),
      storeQuery embed similarity [] text k = [] :=
  chat_empty_or_unavailable_fallback none "t" ⟨"office", []⟩ (Or.inl rfl)

/-- C6: when the store is non-empty and retrieval succeeds, the returned
sources are the retrieved chunk texts, in retrieval order, each truncated
to its first 150 characters with "..." appended. -/
theorem chat_sources_truncation
    (s : StoreState) (ts q : String) (hist : List Message) (n : Nat)
    (texts : List String)
    (hc : s.count = Except.ok n) (hn : 0 < n)
    (hs : s.search q 3 = Except.ok texts) :
    ∃ r, chat (some s) ts ⟨q, hist⟩ = Except.ok r ∧
      r.sources = texts.map (fun t => t.take 150 ++ "...") := by
  simp only [chat, hc, hs]
  rw [if_pos hn]
  exact ⟨_, rfl, rfl⟩

/-- C6 witness at a concrete store with one retrieved text. -/
theorem chat_sources_truncation_witness :
    ∃ r, chat (some ⟨Except.ok 1, fun _ _ => Except.ok ["CBRE leases Class A office space."]⟩)
        "t" ⟨"office", []⟩ = Except.ok r ∧
      r.sources = ["CBRE leases Class A office space."].map (fun t => t.take 150 ++ "...") :=
  chat_sources_truncation ⟨Except.ok 1, fun _ _ => Except.ok ["CBRE leases Class A office space."]⟩
    "t" "office" [] 1 ["CBRE leases Class A office space."] rfl (by omega) rfl

/-- C1 counterexample: on a non-empty store whose similarity search
raises, the request does not fail, but the response is the templated
string built from the "No relevant documents found." placeholder — not
the fixed fallback string that instructs the caller to run ingestion. -/
theorem chat_search_error_cex :
    chat (some ⟨Except.ok 1, fun _ _ => Except.error ()⟩) "ts" ⟨"office", []⟩ =
      Except.ok { response := templated noRelevantContext,
                  sources := [], timestamp := "ts" } ∧
    templated noRelevantContext ≠ fallbackResponse := by
  constructor
  · have step : chat (some ⟨Except.ok 1, fun _ _ => Except.error ()⟩) "ts" ⟨"office", []⟩ =
        Except.ok { response := generate_response "office" noRelevantContext,
                    sources := [], timestamp := "ts" } := rfl
    rw [step, generate_response_noRelevant]
  · exact templated_ne_fallback noRelevantContext

/-- C1 (amended): on a non-empty store, a failing similarity search is
recovered — the request returns `Except.ok`, with the templated response
built from the "No relevant documents found." placeholder context (which
is not the fallback string) and an empty sources list. -/
theorem chat_search_error_recovered
    (s : StoreState) (ts q : String) (hist : List Message) (n : Nat)
    (hc : s.count = Except.ok n) (hn : 0 < n)
    (hs : s.search q 3 = Except.error ()) :
    chat (some s) ts ⟨q, hist⟩ =
      Except.ok { response := templated noRelevantContext, sources := [],
                  timestamp := ts } ∧
    templated noRelevantContext ≠ fallbackResponse := by
  constructor
  · simp only [chat, hc, hs]
    rw [if_pos hn]
    rw [generate_response_noRelevant]
  · exact templated_ne_fallback noRelevantContext

/-- C1 witness at a concrete store whose search raises. -/
theorem chat_search_error_recovered_witness :
    chat (some ⟨Except.ok 2, fun _ _ => Except.error ()⟩) "t" ⟨"industrial", []⟩ =
      Except.ok { response := templated noRelevantContext, sources := [],
                  timestamp := "t" } ∧
    templated noRelevantContext ≠ fallbackResponse :=
  chat_search_error_recovered ⟨Except.ok 2, fun _ _ => Except.error ()⟩
    "t" "industrial" [] 2 rfl (by omega) rfl

/-- C2 counterexample: a request whose query text is the empty string is
accepted and handled normally (no InvalidRequest error), and a
well-formed request against a store whose `count()` raises fails hard
with HTTP 500 — so malformed input is not the only hard failure. -/
theorem chat_invalid_request_cex :
    handleChat (some ⟨Except.ok 1, fun _ _ => Except.ok ["CBRE doc"]⟩) "ts"
        ⟨some "", none⟩ =
      Except.ok { response := templated "CBRE doc",
                  sources := ["CBRE doc".take 150 ++ "..."], timestamp := "ts" } ∧
    handleChat (some ⟨Except.error (), fun _ _ => Except.ok []⟩) "ts"
        ⟨some "office", none⟩ = Except.error 500 := by
  constructor
  · have step : handleChat (some ⟨Except.ok 1, fun _ _ => Except.ok ["CBRE doc"]⟩) "ts"
        ⟨some "", none⟩ =
        Except.ok { response := generate_response "" "CBRE doc",
                    sources := ["CBRE doc".take 150 ++ "..."], timestamp := "ts" } := rfl
    have hgen : generate_response "" "CBRE doc" = templated "CBRE doc" := by
      unfold generate_response
      rw [if_pos (by decide)]
    rw [step, hgen]
  · rfl

/-- C2 (amended): a missing query field is the only HTTP 422
(InvalidRequest) failure; an empty query string is accepted.  Besides
validation, the only hard failure is HTTP 500, which happens exactly when
the query is present and the store object exists but its `count()` call
raises; search failures are recovered into a normal response. -/
theorem handleChat_error_modes
    (store : Option StoreState) (ts : String) (raw : RawChatRequest) :
    (handleChat store ts raw = Except.error 422 ↔ raw.query = none) ∧
    (handleChat store ts raw = Except.error 500 ↔
      raw.query ≠ none ∧ ∃ s, store = some s ∧ s.count = Except.error ()) ∧
    (∀ c, handleChat store ts raw = Except.error c → c = 422 ∨ c = 500) := by
  rcases raw with ⟨oq, hist⟩
  cases oq with
  | none =>
    refine ⟨⟨fun _ => rfl, fun _ => rfl⟩,
      ⟨fun h => ?_, fun h => absurd rfl h.1⟩, fun c h => ?_⟩
    · have h2 : (Except.error 422 : Except Nat ChatResponse) = Except.error 500 := h
      injection h2 with h3
      exact absurd h3 (by decide)
    · have h2 : (Except.error 422 : Except Nat ChatResponse) = Except.error c := h
      injection h2 with h3
      exact Or.inl h3.symm
  | some q =>
    have h := chat_errors store ts ⟨q, hist.getD []⟩
    have heq : handleChat store ts ⟨some q, hist⟩ = chat store ts ⟨q, hist.getD []⟩ := rfl
    rw [heq]
    refine ⟨⟨fun hh => absurd (h.1 422 hh).1 (by decide), fun hq => Option.noConfusion hq⟩,
      ⟨fun hh => ⟨fun hq => Option.noConfusion hq, (h.1 500 hh).2⟩, fun hex => h.2 hex.2⟩,
      fun c hh => Or.inr ((h.1 c hh).1)⟩

/-- C2 witness: a request with no query field fails with 422. -/
theorem handleChat_error_modes_witness :
    handleChat none "t" ⟨none, none⟩ = Except.error 422 :=
  (handleChat_error_modes none "t" ⟨none, none⟩).1.mpr rfl

/-- C5 counterexample: a non-empty store and a successful retrieval whose
single chunk text happens to equal the no-documents sentinel make the
concatenated context equal to the sentinel, so `generate_response`
returns the fallback string instead of the prefix-context-suffix
template. -/
theorem chat_success_template_cex :
    chat (some ⟨Except.ok 1,
          fun _ _ => Except.ok ["No documents in database yet. Using general knowledge."]⟩)
        "ts" ⟨"office", []⟩ =
      Except.ok { response := fallbackResponse,
                  sources := [("No documents in database yet. Using general knowledge.").take 150 ++ "..."],
                  timestamp := "ts" } ∧
    fallbackResponse ≠
      "Based on CBRE's information: " ++
        (String.intercalate "\n\n" ["No documents in database yet. Using general knowledge."]).take 500 ++
        "\n\nIs there anything specific you'd like to know more about?" := by
  constructor
  · have step : chat (some ⟨Except.ok 1,
          fun _ _ => Except.ok ["No documents in database yet. Using general knowledge."]⟩)
        "ts" ⟨"office", []⟩ =
        Except.ok { response := generate_response "office" noDocsContext,
                    sources := [("No documents in database yet. Using general knowledge.").take 150 ++ "..."],
                    timestamp := "ts" } := rfl
    rw [step, generate_response_noDocs]
  · have hform : "Based on CBRE's information: " ++
        (String.intercalate "\n\n" ["No documents in database yet. Using general knowledge."]).take 500 ++
        "\n\nIs there anything specific you'd like to know more about?" =
        templated (String.intercalate "\n\n" ["No documents in database yet. Using general knowledge."]) := rfl
    rw [hform]
    exact (templated_ne_fallback _).symm

/-- C5 (amended): on a non-empty store with a successful retrieval whose
concatenated context (the chunk texts joined by a blank line) is
non-empty and differs from the no-documents sentinel, the store is
queried with k=3 and the response is the fixed prefix, the context
truncated to its first 500 characters, and the fixed closing suffix; the
sources are the truncated chunk texts. -/
theorem chat_success_template
    (s : StoreState) (ts q : String) (hist : List Message) (n : Nat)
    (texts : List String)
    (hc : s.count = Except.ok n) (hn : 0 < n)
    (hs : s.search q 3 = Except.ok texts)
    (hne : String.intercalate "\n\n" texts ≠ "")
    (hnd : String.intercalate "\n\n" texts ≠ noDocsContext) :
    chat (some s) ts ⟨q, hist⟩ =
      Except.ok { response := ("Based on CBRE's information: " ++ (String.intercalate "\n\n" texts).take 500 ++ "\n\nIs there anything specific you'd like to know more about?"),
                  sources := texts.map (fun t => t.take 150 ++ "..."),
                  timestamp := ts } := by
  simp only [chat, hc, hs]
  rw [if_pos hn]
  have hgen : generate_response q (String.intercalate "\n\n" texts) =
      "Based on CBRE's information: " ++
        (String.intercalate "\n\n" texts).take 500 ++
        "\n\nIs there anything specific you'd like to know more about?" := by
    unfold generate_response
    rw [if_pos ⟨hne, hnd⟩]
    rfl
  rw [hgen]

/-- C5 witness at a concrete store with one retrieved text. -/
theorem chat_success_template_witness :
    chat (some ⟨Except.ok 1, fun _ _ => Except.ok ["CBRE leases Class A office space."]⟩)
        "t" ⟨"office space", []⟩ =
      Except.ok { response := ("Based on CBRE's information: " ++ (String.intercalate "\n\n" ["CBRE leases Class A office space."]).take 500 ++ "\n\nIs there anything specific you'd like to know more about?"),
                  sources := ["CBRE leases Class A office space."].map (fun t => t.take 150 ++ "..."),
                  timestamp := "t" } :=
  chat_success_template
    ⟨Except.ok 1, fun _ _ => Except.ok ["CBRE leases Class A office space."]⟩
    "t" "office space" [] 1 ["CBRE leases Class A office space."]
    rfl (by omega) rfl (by decide) (by decide)

/-- C7: for every query and every k > 0, the store query returns at most
k results, ordered by non-increasing score with ties broken by insertion
order (strictly increasing insertion index among equal scores); the
public result is the ranked list with internal indices dropped. -/
theorem storeQuery_topk_ordered
    (embed : String → List ℚ) (similarity : List ℚ → List ℚ → ℚ)
    (store : List Chunk) (text : String) (k : Nat) (hk : 0 < k) :
    (storeQuery embed similarity store text k).length ≤ k ∧
    (queryRanked store (similarity (embed text)) k).Pairwise
      (fun a b => b.2.1 ≤ a.2.1 ∧ (a.2.1 = b.2.1 → a.1 < b.1)) ∧
    storeQuery embed similarity store text k =
      (queryRanked store (similarity (embed text)) k).map (fun e => (e.2.2, e.2.1)) := by
  refine ⟨?_, ?_, rfl⟩
  · rw [storeQuery, List.length_map, queryRanked, List.length_take]
    exact min_le_left _ _
  · set score := similarity (embed text)
    have hsorted : List.Pairwise rankLE
        (List.insertionSort rankLE (scoredEntries store score)) :=
      List.sorted_insertionSort rankLE (scoredEntries store score)
    have hperm := List.perm_insertionSort rankLE (scoredEntries store score)
    have hnodup : (scoredEntries store score).Pairwise (fun a b => a.1 ≠ b.1) := by
      have h1 : (List.map Prod.fst store.enum).Nodup := List.nodup_enum_map_fst store
      rw [List.Nodup, List.pairwise_map] at h1
      rw [scoredEntries, List.pairwise_map]
      exact h1
    have hnodup2 : (List.insertionSort rankLE (scoredEntries store score)).Pairwise
        (fun a b => a.1 ≠ b.1) :=
      (List.Perm.pairwise_iff (fun hxy => Ne.symm hxy) hperm).mpr hnodup
    have hboth := hsorted.and hnodup2
    have htake := hboth.sublist (List.take_sublist k _)
    rw [queryRanked]
    refine htake.imp ?_
    rintro a b ⟨hr, hne⟩
    rcases hr with h | ⟨he, hl⟩
    · refine ⟨le_of_lt h, fun heq => ?_⟩
      rw [heq] at h
      exact absurd h (lt_irrefl _)
    · exact ⟨he.ge, fun _ => lt_of_le_of_ne hl hne⟩

/-- C7 witness at a concrete three-entry store with k = 2. -/
theorem storeQuery_topk_ordered_witness :
    (storeQuery (fun _ => [(1 : ℚ)]) dotProduct
        [⟨"CBRE office", [(2 : ℚ)]⟩, ⟨"CBRE retail", [(3 : ℚ)]⟩, ⟨"CBRE industrial", [(3 : ℚ)]⟩]
        "office" 2).length ≤ 2 ∧
    (queryRanked
        [⟨"CBRE office", [(2 : ℚ)]⟩, ⟨"CBRE retail", [(3 : ℚ)]⟩, ⟨"CBRE industrial", [(3 : ℚ)]⟩]
        (dotProduct ((fun _ => [(1 : ℚ)]) "office")) 2).Pairwise
      (fun a b => b.2.1 ≤ a.2.1 ∧ (a.2.1 = b.2.1 → a.1 < b.1)) ∧
    storeQuery (fun _ => [(1 : ℚ)]) dotProduct
        [⟨"CBRE office", [(2 : ℚ)]⟩, ⟨"CBRE retail", [(3 : ℚ)]⟩, ⟨"CBRE industrial", [(3 : ℚ)]⟩]
        "office" 2 =
      (queryRanked
        [⟨"CBRE office", [(2 : ℚ)]⟩, ⟨"CBRE retail", [(3 : ℚ)]⟩, ⟨"CBRE industrial", [(3 : ℚ)]⟩]
        (dotProduct ((fun _ => [(1 : ℚ)]) "office")) 2).map (fun e => (e.2.2, e.2.1)) :=
  storeQuery_topk_ordered (fun _ => [(1 : ℚ)]) dotProduct
    [⟨"CBRE office", [(2 : ℚ)]⟩, ⟨"CBRE retail", [(3 : ℚ)]⟩, ⟨"CBRE industrial", [(3 : ℚ)]⟩]
    "office" 2 (by omega)

/-- A successful `lastSepEnd` search returns a position in range whose
window ends with the separator. -/
theorem lastSepEnd_some {sep s : List Char} {lo : Nat} :
    ∀ {fuel r : Nat}, lastSepEnd sep s lo fuel = some r →
      lo < r ∧ r ≤ fuel ∧ sep.isSuffixOf (s.take r) = true := by
  intro fuel
  induction fuel with
  | zero =>
    intro r h
    exact Option.noConfusion h
  | succ e ih =>
    intro r h
    rw [lastSepEnd] at h
    split at h
    · next hc =>
      injection h with h'
      subst h'
      exact ⟨hc.1, Nat.le_refl _, hc.2⟩
    · next hc =>
      obtain ⟨h1, h2, h3⟩ := ih h
      exact ⟨h1, Nat.le_succ_of_le h2, h3⟩

/-- A failed `lastSepEnd` search means no position in range has its
window ending with the separator. -/
theorem lastSepEnd_none {sep s : List Char} {lo : Nat} :
    ∀ {fuel : Nat}, lastSepEnd sep s lo fuel = none →
      ∀ r, lo < r → r ≤ fuel → ¬ sep.isSuffixOf (s.take r) = true := by
  intro fuel
  induction fuel with
  | zero =>
    intro _ r h1 h2
    intro _
    omega
  | succ e ih =>
    intro h r h1 h2
    rw [lastSepEnd] at h
    split at h
    · exact Option.noConfusion h
    · next hc =>
      intro hsuf
      by_cases hr : r = e + 1
      · subst hr
        exact hc ⟨h1, hsuf⟩
      · exact ih h r h1 (by omega) hsuf

/-- `hasSepEnd` decides the existence of a usable split point for a
separator. -/
theorem hasSepEnd_iff {sep s : List Char} {lo hi : Nat} :
    hasSepEnd sep s lo hi = true ↔
      ∃ e, lo < e ∧ e ≤ hi ∧ sep.isSuffixOf (s.take e) = true := by
  unfold hasSepEnd
  rw [List.any_eq_true]
  constructor
  · rintro ⟨e, hmem, hp⟩
    rw [List.mem_range] at hmem
    rw [Bool.and_eq_true, decide_eq_true_eq] at hp
    exact ⟨e, hp.1, by omega, hp.2⟩
  · rintro ⟨e, h1, h2, h3⟩
    refine ⟨e, List.mem_range.mpr (by omega), ?_⟩
    rw [Bool.and_eq_true, decide_eq_true_eq]
    exact ⟨h1, h3⟩

/-- The separator cascade returns a position in range that satisfies the
split-point priority policy. -/
theorem splitBySeps_spec (s : List Char) (lo hi : Nat) (hlh : lo < hi)
    (seps : List (List Char)) :
    (lo < splitBySeps seps s lo hi ∧ splitBySeps seps s lo hi ≤ hi) ∧
    priorityChoice seps s lo hi (splitBySeps seps s lo hi) := by
  induction seps with
  | nil => exact ⟨⟨hlh, Nat.le_refl hi⟩, rfl⟩
  | cons sep rest ih =>
    cases hle : lastSepEnd sep s lo hi with
    | some e =>
      obtain ⟨h1, h2, h3⟩ := lastSepEnd_some hle
      have hhas : hasSepEnd sep s lo hi = true := hasSepEnd_iff.mpr ⟨e, h1, h2, h3⟩
      simp only [splitBySeps, priorityChoice, hle]
      rw [if_pos hhas]
      exact ⟨⟨h1, h2⟩, h3⟩
    | none =>
      have hnot : ¬ hasSepEnd sep s lo hi = true := by
        intro hh
        obtain ⟨e, h1, h2, h3⟩ := hasSepEnd_iff.mp hh
        exact lastSepEnd_none hle e h1 h2 h3
      simp only [splitBySeps, priorityChoice, hle]
      rw [if_neg hnot]
      exact ih

/-- The chosen split position lies strictly between the overlap and the
window limit and satisfies the priority policy. -/
theorem splitEnd_spec (S O : Nat) (hSO : O < S) (s : List Char) :
    (O < splitEnd S O s ∧ splitEnd S O s ≤ S) ∧
    priorityChoice separators s O S (splitEnd S O s) := by
  obtain ⟨hb, hp⟩ := splitBySeps_spec s O S hSO separators
  unfold splitEnd
  rw [if_pos hb]
  exact ⟨hb, hp⟩

/-- One-step unfolding of `chunkList` on short input. -/
theorem chunkList_base {S O : Nat} {hSO : O < S} {s : List Char}
    (h : s.length ≤ S) :
    chunkList S O hSO s = if s.isEmpty then [] else [s] := by
  rw [chunkList]
  rw [if_pos h]

/-- One-step unfolding of `chunkList` on long input. -/
theorem chunkList_rec {S O : Nat} {hSO : O < S} {s : List Char}
    (h : ¬ s.length ≤ S) :
    chunkList S O hSO s =
      s.take (splitEnd S O s) :: chunkList S O hSO (s.drop (splitEnd S O s - O)) := by
  rw [chunkList]
  rw [if_neg h]

/-- Every chunk has at most `S` characters. -/
theorem chunkList_length_le (S O : Nat) (hSO : O < S) (s : List Char) :
    ∀ c ∈ chunkList S O hSO s, c.length ≤ S := by
  refine chunkList.induct S O hSO
    (fun t => ∀ c ∈ chunkList S O hSO t, c.length ≤ S) ?_ ?_ ?_ s
  · intro x hx hempty c hc
    rw [chunkList_base hx, if_pos hempty] at hc
    exact absurd hc (List.not_mem_nil c)
  · intro x hx hempty c hc
    rw [chunkList_base hx, if_neg hempty] at hc
    rw [List.mem_singleton] at hc
    subst hc
    exact hx
  · intro x hx ih c hc
    rw [chunkList_rec hx] at hc
    rw [List.mem_cons] at hc
    rcases hc with hc | hc
    · subst hc
      have hb := (splitEnd_spec S O hSO x).1
      rw [List.length_take]
      exact le_trans inf_le_left hb.2
    · exact ih c hc

/-- The first chunk of a text longer than the overlap keeps the first `O`
characters of the text and is itself longer than `O`. -/
theorem chunkList_head (S O : Nat) (hSO : O < S) (s : List Char)
    (hO : O < s.length) :
    ∃ c l, chunkList S O hSO s = c :: l ∧ O < c.length ∧ c.take O = s.take O := by
  by_cases h : s.length ≤ S
  · have hne : ¬ s.isEmpty = true := by
      rw [List.isEmpty_iff]
      intro h0
      rw [h0] at hO
      simp at hO
    rw [chunkList_base h, if_neg hne]
    exact ⟨s, [], rfl, hO, rfl⟩
  · rw [chunkList_rec h]
    obtain ⟨⟨hb1, hb2⟩, -⟩ := splitEnd_spec S O hSO s
    refine ⟨_, _, rfl, ?_, ?_⟩
    · rw [List.length_take]
      exact lt_inf_iff.mpr ⟨hb1, hO⟩
    · rw [List.take_take]
      rw [inf_eq_left.mpr (le_of_lt hb1)]

/-- Consecutive chunks overlap in exactly `O` characters. -/
theorem chunkList_chain (S O : Nat) (hSO : O < S) (s : List Char) :
    List.Chain' (overlapRel O) (chunkList S O hSO s) := by
  refine chunkList.induct S O hSO
    (fun t => List.Chain' (overlapRel O) (chunkList S O hSO t)) ?_ ?_ ?_ s
  · intro x hx hempty
    rw [chunkList_base hx, if_pos hempty]
    exact List.chain'_nil
  · intro x hx hempty
    rw [chunkList_base hx, if_neg hempty]
    exact List.chain'_singleton x
  · intro x hx ih
    rw [chunkList_rec hx]
    obtain ⟨⟨hb1, hb2⟩, -⟩ := splitEnd_spec S O hSO x
    have hxlen : S < x.length := by omega
    have htlen : O < (x.drop (splitEnd S O x - O)).length := by
      rw [List.length_drop]
      omega
    obtain ⟨c, l, hcl, hclen, hcO⟩ := chunkList_head S O hSO _ htlen
    rw [hcl]
    refine List.Chain'.cons ?_ (hcl ▸ ih)
    refine ⟨?_, hclen, ?_⟩
    · rw [List.length_take]
      exact lt_inf_iff.mpr ⟨hb1, by omega⟩
    · rw [hcO]
      rw [List.length_take]
      rw [inf_eq_left.mpr (by omega : splitEnd S O x ≤ x.length)]
      rw [List.drop_take]
      rw [Nat.sub_sub_self (le_of_lt hb1)]

/-- Dropping `i` chunks from a chunking yields the chunking of a residual
text. -/
theorem chunkList_residual (S O : Nat) (hSO : O < S) :
    ∀ i (s : List Char), i < (chunkList S O hSO s).length →
      ∃ t, (chunkList S O hSO s).drop i = chunkList S O hSO t := by
  intro i
  induction i with
  | zero => exact fun s _ => ⟨s, rfl⟩
  | succ j ih =>
    intro s hj
    by_cases h : s.length ≤ S
    · have hlen : (chunkList S O hSO s).length ≤ 1 := by
        rw [chunkList_base h]
        split
        · simp
        · simp
      omega
    · rw [chunkList_rec h] at hj ⊢
      rw [List.length_cons] at hj
      rw [List.drop_succ_cons]
      exact ih _ (by omega)

/-- Every non-final chunk is the priority-policy cut of some residual
text longer than `S`. -/
theorem chunkList_priority (S O : Nat) (hSO : O < S) (s : List Char) :
    ∀ i, i + 1 < (chunkList S O hSO s).length →
      ∃ t, S < t.length ∧ (chunkList S O hSO s).drop i = chunkList S O hSO t ∧
        chunkList S O hSO t =
          t.take (splitEnd S O t) :: chunkList S O hSO (t.drop (splitEnd S O t - O)) ∧
        priorityChoice separators t O S (splitEnd S O t) := by
  intro i hi
  obtain ⟨t, ht⟩ := chunkList_residual S O hSO i s (by omega)
  have hlen2 : 2 ≤ (chunkList S O hSO t).length := by
    rw [← ht, List.length_drop]
    omega
  have hT : ¬ t.length ≤ S := by
    intro hle
    rw [chunkList_base hle] at hlen2
    by_cases he : t.isEmpty
    · rw [if_pos he] at hlen2
      simp at hlen2
    · rw [if_neg he] at hlen2
      simp at hlen2
  exact ⟨t, by omega, ht, chunkList_rec hT, (splitEnd_spec S O hSO t).2⟩

/-- C8: for chunk size `S` and overlap `0 < O < S` (the source configures
S = 500, O = 50), every produced chunk has at most `S` characters (with
character-level splitting allowed, no chunk ever exceeds `S`); consecutive
chunks share a non-empty overlap of exactly `O` characters (the suffix of
the earlier chunk is the prefix of the later one); and every internal
split point is chosen by the separator priority policy: the chunk ends at
the highest-priority separator present in its window, or at the window
limit when no separator is present. -/
theorem chunker_contract (S O : Nat) (hO : 0 < O) (hSO : O < S) (s : List Char) :
    (∀ c ∈ chunkList S O hSO s, c.length ≤ S) ∧
    List.Chain' (overlapRel O) (chunkList S O hSO s) ∧
    (∀ i, i + 1 < (chunkList S O hSO s).length →
      ∃ t, S < t.length ∧ (chunkList S O hSO s).drop i = chunkList S O hSO t ∧
        chunkList S O hSO t =
          t.take (splitEnd S O t) :: chunkList S O hSO (t.drop (splitEnd S O t - O)) ∧
        priorityChoice separators t O S (splitEnd S O t)) :=
  ⟨chunkList_length_le S O hSO s, chunkList_chain S O hSO s,
    chunkList_priority S O hSO s⟩

/-- C8 witness at the source configuration S = 500, O = 50. -/
theorem chunker_contract_witness :
    (0 : Nat) < 50 ∧ (50 : Nat) < 500 ∧
    (∀ c ∈ chunkList 500 50 (by omega) "CBRE offers office space.".toList,
      c.length ≤ 500) :=
  ⟨by omega, by omega,
    (chunker_contract 500 50 (by omega) (by omega) "CBRE offers office space.".toList).1⟩

/-- C9: ingestion is deterministic across fresh stores — running the
ingestion of the fixed sample documents against an empty store, and
re-running it against another empty store, yields the same final
`count()` both times. -/
theorem ingest_fresh_deterministic (s1 s2 : List IngestDocument)
    (h1 : s1 = []) (h2 : s2 = []) :
    storeCount (ingest_data s1) = storeCount (ingest_data s2) := by
  subst h1
  subst h2
  rfl

/-- C9 witness at two (equal) concrete fresh stores. -/
theorem ingest_fresh_deterministic_witness :
    ([] : List IngestDocument) = [] ∧
    storeCount (ingest_data []) = storeCount (ingest_data []) :=
  ⟨rfl, ingest_fresh_deterministic [] [] rfl rfl⟩
